import Mathlib

/-!
Verification of the `seo-optimizer-backend` repository.

This file shallowly embeds the parts of the repository that the frozen
claims are about:

* the pure Scoring Engine (`apps/seo_app/services/seo/seo_analyzer.py` and
  `apps/seo_app/services/seo/constants.py`): input validation, keyword
  density, issue severities and the composite SEO score;
* the record shapes (`apps/seo_app/models.py`);
* the three Celery task handlers (`apps/seo_app/tasks/seo_tasks.py`):
  `analyze_content_task`, `optimize_after_analysis_task`,
  `optimize_content_task`, their retry policy (`max_retries=3`) and their
  terminal-failure handling;
* small transition systems over those handlers, describing the reachable
  execution traces of the two task chains.

Python strings are embedded as `List Char`; Django nullable fields as
`Option`; machine timestamps as `Nat`. External collaborators (the HTTP
fetcher, the BeautifulSoup text extraction, the `textstat` readability
formula and the OpenAI rewrite service) are modelled as environment-chosen
outcomes supplied to each task attempt; everything the repository itself
computes (validation, tokenizing, keyword density, score arithmetic,
record mutation, retry bookkeeping) is embedded concretely.
-/

namespace SeoOptimizer

/-- Python strings are embedded as lists of characters. -/
abbrev Str := List Char

/-- ASCII whitespace, the class `str.split()` / `str.strip()` split and
strip on for the ASCII inputs this development evaluates. -/
def isWs (c : Char) : Bool :=
  c == ' ' || c == '\t' || c == '\n' || c == '\r'

/-- Helper for `splitWs`: accumulates the current (reversed) token. -/
def splitWsAux : List Char → List Char → List (List Char)
  | [], acc => if acc.isEmpty then [] else [acc.reverse]
  | c :: rest, acc =>
    if isWs c then
      if acc.isEmpty then splitWsAux rest []
      else acc.reverse :: splitWsAux rest []
    else splitWsAux rest (c :: acc)

/-- Python `str.split()` with no argument: split on runs of whitespace and
drop empty fragments. -/
def splitWs (s : Str) : List Str :=
  splitWsAux s []

/-- Python `str.strip()`: drop leading and trailing whitespace. -/
def stripWs (s : Str) : Str :=
  ((s.dropWhile isWs).reverse.dropWhile isWs).reverse

/-- Python `str.lower()` (ASCII case mapping). -/
def pyLower (s : Str) : Str :=
  s.map Char.toLower

/-- Round-half-even to an integer, the rounding mode of Python `round`.
None of the values this development rounds sits on a tie, so any faithful
tie-break gives the same results. -/
def rhe (q : ℚ) : ℤ :=
  let f : ℤ := ⌊q⌋
  let frac : ℚ := q - f
  if frac < 1/2 then f
  else if 1/2 < frac then f + 1
  else if f % 2 = 0 then f else f + 1

/-- Python `round(x, 2)` on the rational value of `x`. -/
def round2 (q : ℚ) : ℚ :=
  (rhe (q * 100) : ℚ) / 100

/-- The valid input types of `SEOAnalyzer` (`VALID_INPUT_TYPES`). -/
def VALID_INPUT_TYPES : List Str := ["html".data, "content".data]

/-- The validation performed by `SEOAnalyzer.__init__`: non-empty content
after trimming, non-empty keyword after trimming, recognised input type.
(`not content or not content.strip()` is equivalent to
`content.strip() == ""`, and similarly for the keyword.) -/
def seoAnalyzerInitOk (content target_keyword input_type : Str) : Bool :=
  !(stripWs content).isEmpty
    && !(stripWs target_keyword).isEmpty
    && VALID_INPUT_TYPES.contains (stripWs (pyLower input_type))

/-- `SEOAnalyzer.calculate_keyword_density` applied to the derived text:
lowercase, whitespace-split, count tokens exactly equal to the
lowercased-and-stripped target keyword, and round the percentage to two
decimals; `0` when there are no tokens.  (For `input_type == "content"`
the derived text is the content verbatim; for `"html"` it is the
BeautifulSoup extraction, which callers of this function supply already
derived.) -/
def calculate_keyword_density (text target_keyword : Str) : ℚ :=
  let words := splitWs (pyLower text)
  if words = [] then 0
  else round2 (((words.count (stripWs (pyLower target_keyword)) : ℚ) / (words.length : ℚ)) * 100)

/-- Issue severities (`constants.py`). -/
inductive Severity where
  | low
  | medium
  | high
deriving DecidableEq, Repr

/-- The issue codes of `ISSUE_DEFINITIONS` in `constants.py`. -/
inductive IssueCode where
  | no_h1_tag
  | missing_meta_description
  | keyword_density_low
  | keyword_density_high
  | missing_subheadings
  | readability_poor
deriving DecidableEq, Repr

/-- The `severity` entry of each `ISSUE_DEFINITIONS` record
(`constants.py`; the `message` and `suggestion` entries are display
strings that no claim depends on). -/
def severityOf : IssueCode → Severity
  | .no_h1_tag => .high
  | .missing_meta_description => .medium
  | .keyword_density_low => .medium
  | .keyword_density_high => .medium
  | .missing_subheadings => .low
  | .readability_poor => .medium

/-- `SEOAnalyzer.SEVERITY_PENALTIES = {"low": 3, "medium": 7, "high": 15}`. -/
def SEVERITY_PENALTIES : Severity → ℤ
  | .low => 3
  | .medium => 7
  | .high => 15

/-- `SEOAnalyzer.calculate_mock_seo_score` applied to a detected issue
map (embedded as the list of its keys): start at 100, subtract the
penalty of each issue's severity, clamp to `[0, 100]`. -/
def calculate_mock_seo_score (issues : List IssueCode) : ℤ :=
  let score := issues.foldl (fun sc i => sc - SEVERITY_PENALTIES (severityOf i)) 100
  max 0 (min 100 score)

/-- Modelled from the spec: `exactTokenMatches(keyword)` — the number of
tokens of the lowercased, whitespace-split derived text exactly equal to
the lowercased trimmed keyword. -/
def exactTokenMatches (text target_keyword : Str) : ℕ :=
  (splitWs (pyLower text)).count (stripWs (pyLower target_keyword))

/-- Modelled from the spec: `round(100 * exactTokenMatches(keyword) /
totalTokens, 2)`, `0` when there are no tokens. -/
def specKeywordDensity (text target_keyword : Str) : ℚ :=
  let total := (splitWs (pyLower text)).length
  if total = 0 then 0
  else round2 (100 * (exactTokenMatches text target_keyword : ℚ) / (total : ℚ))

/-! ## Records (`apps/seo_app/models.py`) -/

/-- `BaseRecord.STATUS_CHOICES`; the default is `processing`. -/
inductive Status where
  | processing
  | completed
  | failed
deriving DecidableEq, Repr

/-- `AnalysisRecord` (Django nullable fields as `Option`; timestamps as
`Nat`; `issues` as the list of detected issue codes). -/
structure AnalysisRecord where
  status : Status
  input_content : Option Str
  input_url : Option Str
  target_keyword : Str
  seo_score : Option ℚ
  word_count : Option ℕ
  keyword_density : Option ℚ
  avg_sentence_length : Option ℚ
  readability_score : Option ℚ
  issues : Option (List IssueCode)
  optimized_imporvements : Option (List Str)
  optimized_content : Option Str
  processing_time : Option ℕ
  completed_at : Option ℕ
deriving DecidableEq, Repr

/-- `OptimizationRecord` (its `input_content` is declared non-nullable). -/
structure OptimizationRecord where
  status : Status
  input_content : Str
  target_keyword : Str
  target_length : ℕ
  tone : Str
  optimized_keyword_denisty : Option ℚ
  optimized_imporvements : Option (List Str)
  optimized_content : Option Str
  processing_time : Option ℕ
  completed_at : Option ℕ
deriving DecidableEq, Repr

/-! ## Task handlers (`apps/seo_app/tasks/seo_tasks.py`)

Each Celery task is embedded as a total function from the stored record
(`none` when the id is absent from the store), the current retry count
(`self.request.retries`) and an environment holding the outcomes of the
external calls made during this attempt, to the stored record after the
attempt together with the attempt's effect.  `self.retry` at
`retries < max_retries` re-schedules the task (effect `retried`, stored
record untouched because nothing was saved); at `retries = max_retries`
it raises `MaxRetriesExceededError`, and the handler saves the in-memory
record object with `status = "failed"` and `completed_at = now`.  No
constructor of the effect type represents an exception escaping the
task: the handlers catch everything, exactly as the source does. -/

/-- The value `"content"` passed as `input_type`. -/
def contentType : Str := "content".data

/-- The value `"html"` passed as `input_type`. -/
def htmlType : Str := "html".data

/-- The result of `analyzer.analyze()` as consumed by
`analyze_content_task` (the readability formula comes from the external
`textstat` library, so the concrete values are environment-supplied). -/
structure AnalysisData where
  word_count : ℕ
  keyword_density : ℚ
  readability_score : ℚ
  avg_sentence_length : ℚ
  seo_score : ℚ
  issues : List IssueCode
deriving DecidableEq, Repr

/-- Outcome of `extract_html(url)` (network call). -/
inductive FetchResult where
  | ok (text : Str)
  | fail
deriving DecidableEq, Repr

/-- Outcome of `analyzer.analyze()` (may raise inside the external
libraries it calls). -/
inductive AnalyzeResult where
  | ok (d : AnalysisData)
  | fail
deriving DecidableEq, Repr

/-- Environment of one `analyze_content_task` attempt. -/
structure AEnv where
  fetch : FetchResult
  analyzeRes : AnalyzeResult
  now : ℕ
  elapsed : ℕ
deriving DecidableEq, Repr

/-- Environment of one `optimize_after_analysis_task` attempt:
`rewrite = some (optimized_content, improvements_done)` when the OpenAI
call returns a validated result, `none` when it raises. -/
structure BEnv where
  rewrite : Option (Str × List Str)
  now : ℕ
deriving DecidableEq, Repr

/-- Environment of one `optimize_content_task` attempt. -/
structure OEnv where
  rewrite : Option (Str × List Str)
  now : ℕ
  elapsed : ℕ
deriving DecidableEq, Repr

/-- What the Celery machinery observes of one attempt: the handler
returned after a full run (`finished`), returned after enqueuing
Stage B (`enqueuedB`), or re-scheduled itself (`retried`). -/
inductive TaskEffect where
  | finished
  | enqueuedB
  | retried
deriving DecidableEq, Repr

/-- One `analyze_content_task` / `optimize_after_analysis_task` attempt:
the stored `AnalysisRecord` afterwards, and the attempt's effect. -/
structure TaskRunA where
  record : Option AnalysisRecord
  effect : TaskEffect
deriving DecidableEq, Repr

/-- One `optimize_content_task` attempt. -/
structure TaskRunO where
  record : Option OptimizationRecord
  effect : TaskEffect
deriving DecidableEq, Repr

/-- `max_retries=3` on all three `@shared_task` decorators. -/
def max_retries : ℕ := 3

/-- Input resolution at the top of `analyze_content_task`'s `try` block:
`if record.input_url:` fetch the page (may raise) and analyze as html,
else analyze the stored content verbatim.  (Python treats a `None`
content like `""`; both fail the downstream validation.) -/
def resolvedInput (r : AnalysisRecord) (env : AEnv) : Option (Str × Str) :=
  match r.input_url with
  | some _ =>
    match env.fetch with
    | .ok t => some (t, htmlType)
    | .fail => none
  | none => some (r.input_content.getD [], contentType)

/-- The `try` block of `analyze_content_task`: resolve the input, build
the `SEOAnalyzer` (validation may raise), run `analyze()`, then persist
every metric plus the resolved content, set `status = "processing"` and
`processing_time`, and fall through to enqueuing Stage B.  `.error`
carries the in-memory record object at the raise point (never mutated
before the save in this handler). -/
def analyze_body (r : AnalysisRecord) (env : AEnv) : Except AnalysisRecord AnalysisRecord :=
  match resolvedInput r env with
  | none => .error r
  | some (content, input_type) =>
    if seoAnalyzerInitOk content r.target_keyword input_type then
      match env.analyzeRes with
      | .fail => .error r
      | .ok d =>
        .ok { r with
          input_content := some content
          word_count := some d.word_count
          keyword_density := some d.keyword_density
          readability_score := some d.readability_score
          avg_sentence_length := some d.avg_sentence_length
          seo_score := some d.seo_score
          issues := some d.issues
          status := .processing
          processing_time := some env.elapsed }
    else .error r

/-- `analyze_content_task`: missing record → log and return; body
success → save and enqueue `optimize_after_analysis_task`; body raise →
retry, or on exhaustion save the in-memory record with `failed` status
and `completed_at`. -/
def analyze_content_task (rec0 : Option AnalysisRecord) (retries : ℕ) (env : AEnv) :
    TaskRunA :=
  match rec0 with
  | none => ⟨none, .finished⟩
  | some r =>
    match analyze_body r env with
    | .ok r2 => ⟨some r2, .enqueuedB⟩
    | .error inmem =>
      if retries < max_retries then ⟨some r, .retried⟩
      else ⟨some { inmem with status := .failed, completed_at := some env.now }, .finished⟩

/-- The argument validation at the top of
`SEOOptimizerService.post_analysis_optimize`: `if not content or not
keyword: raise ValueError` (`None` and `""` are both falsy). -/
def post_analysis_optimize_ok (content : Option Str) (keyword : Str) : Bool :=
  !(content.getD []).isEmpty && !keyword.isEmpty

/-- The `try` block of `optimize_after_analysis_task`: call the rewrite
service with the persisted metrics, then persist `optimized_content` and
`optimized_imporvements`, set `status = "completed"` and stamp
`completed_at`. -/
def optimize_after_body (r : AnalysisRecord) (env : BEnv) : Except AnalysisRecord AnalysisRecord :=
  if post_analysis_optimize_ok r.input_content r.target_keyword then
    match env.rewrite with
    | none => .error r
    | some (oc, imp) =>
      .ok { r with
        optimized_content := some oc
        optimized_imporvements := some imp
        status := .completed
        completed_at := some env.now }
  else .error r

/-- `optimize_after_analysis_task` (Stage B). -/
def optimize_after_analysis_task (rec0 : Option AnalysisRecord) (retries : ℕ) (env : BEnv) :
    TaskRunA :=
  match rec0 with
  | none => ⟨none, .finished⟩
  | some r =>
    match optimize_after_body r env with
    | .ok r2 => ⟨some r2, .finished⟩
    | .error inmem =>
      if retries < max_retries then ⟨some r, .retried⟩
      else ⟨some { inmem with status := .failed, completed_at := some env.now }, .finished⟩

/-- The argument validation at the top of `SEOOptimizerService.optimize`:
`if not content or not keyword or not tone or not target_length`. -/
def optimize_args_ok (content keyword tone : Str) (target_length : ℕ) : Bool :=
  !content.isEmpty && !keyword.isEmpty && !tone.isEmpty && target_length != 0

/-- The `try` block of `optimize_content_task`: call the rewrite service,
assign `optimized_content` and `optimized_imporvements` on the in-memory
record, then compute `optimized_keyword_denisty` by building a fresh
`SEOAnalyzer(record.optimized_content, record.target_keyword, "content")`
— whose validation may raise, leaving the partial in-memory record as the
raise-point state — and on success set `status = "completed"`,
`processing_time` and `completed_at`. -/
def optimize_body (r : OptimizationRecord) (env : OEnv) : Except OptimizationRecord OptimizationRecord :=
  if optimize_args_ok r.input_content r.target_keyword r.tone r.target_length then
    match env.rewrite with
    | none => .error r
    | some (oc, imp) =>
      let inmem := { r with optimized_content := some oc, optimized_imporvements := some imp }
      if seoAnalyzerInitOk oc r.target_keyword contentType then
        .ok { inmem with
          optimized_keyword_denisty := some (calculate_keyword_density oc r.target_keyword)
          status := .completed
          processing_time := some env.elapsed
          completed_at := some env.now }
      else .error inmem
  else .error r

/-- `optimize_content_task` (the direct-optimize chain's single stage). -/
def optimize_content_task (rec0 : Option OptimizationRecord) (retries : ℕ) (env : OEnv) :
    TaskRunO :=
  match rec0 with
  | none => ⟨none, .finished⟩
  | some r =>
    match optimize_body r env with
    | .ok r2 => ⟨some r2, .finished⟩
    | .error inmem =>
      if retries < max_retries then ⟨some r, .retried⟩
      else ⟨some { inmem with status := .failed, completed_at := some env.now }, .finished⟩

/-! ## Trace systems

`SysA`/`StepA` is the analyze-then-optimize chain exactly as the code
itself drives it: the API enqueues `analyze_content_task` once for a
fresh record, a successful Stage A enqueues Stage B once, and `retried`
re-schedules the same stage with an incremented retry count — each
enqueued invocation is delivered exactly once, so at most one invocation
is ever pending.  `SysO`/`StepO` is the same for the direct-optimize
chain.  `SysAL`/`StepAL` additionally models the at-least-once delivery
the spec assumes of the task transport: once Stage B has been enqueued,
the transport may deliver it again at any time. -/

/-- The two stages of the analyze-then-optimize chain. -/
inductive StageA where
  | analyze
  | optimizeAfter
deriving DecidableEq, Repr

/-- Chain state under exactly-once delivery: the stored record and the
at-most-one pending stage invocation (with its retry count). -/
structure SysA where
  record : Option AnalysisRecord
  pending : Option (StageA × ℕ)
deriving DecidableEq, Repr

/-- The pending invocation an attempt's effect leaves behind. -/
def applyEffectA (stg : StageA) (k : ℕ) : TaskEffect → Option (StageA × ℕ)
  | .finished => none
  | .enqueuedB => some (.optimizeAfter, 0)
  | .retried => some (stg, k + 1)

/-- One delivered invocation of the pending stage, under an arbitrary
environment for the external calls. -/
inductive StepA : SysA → SysA → Prop
  | runAnalyze (s : SysA) (k : ℕ) (env : AEnv)
      (h : s.pending = some (.analyze, k)) :
      StepA s ⟨(analyze_content_task s.record k env).record,
        applyEffectA .analyze k (analyze_content_task s.record k env).effect⟩
  | runOptimizeAfter (s : SysA) (k : ℕ) (env : BEnv)
      (h : s.pending = some (.optimizeAfter, k)) :
      StepA s ⟨(optimize_after_analysis_task s.record k env).record,
        applyEffectA .optimizeAfter k (optimize_after_analysis_task s.record k env).effect⟩

/-- Reachability in the exactly-once analyze-then-optimize chain. -/
def ReachA : SysA → SysA → Prop := Relation.ReflTransGen StepA

/-- The state the API boundary creates: the fresh record stored and one
`analyze_content_task` invocation enqueued. -/
def initA (r0 : AnalysisRecord) : SysA := ⟨some r0, some (.analyze, 0)⟩

/-- Direct-optimize chain state under exactly-once delivery. -/
structure SysO where
  record : Option OptimizationRecord
  pending : Option ℕ
deriving DecidableEq, Repr

/-- Pending work after one direct-optimize attempt. -/
def applyEffectO (k : ℕ) : TaskEffect → Option ℕ
  | .retried => some (k + 1)
  | _ => none

/-- One delivered invocation of `optimize_content_task`. -/
inductive StepO : SysO → SysO → Prop
  | runOptimize (s : SysO) (k : ℕ) (env : OEnv)
      (h : s.pending = some k) :
      StepO s ⟨(optimize_content_task s.record k env).record,
        applyEffectO k (optimize_content_task s.record k env).effect⟩

/-- Reachability in the exactly-once direct-optimize chain. -/
def ReachO : SysO → SysO → Prop := Relation.ReflTransGen StepO

/-- The state the API boundary creates for the direct-optimize chain. -/
def initO (q0 : OptimizationRecord) : SysO := ⟨some q0, some 0⟩

/-- Analyze-then-optimize chain state under the at-least-once delivery
the spec assumes: a queue of pending invocations, plus a flag recording
that Stage B was enqueued at some point (so the transport may deliver it
again). -/
structure SysAL where
  record : Option AnalysisRecord
  pending : List (StageA × ℕ)
  enqueuedOptimizeAfter : Bool
deriving DecidableEq, Repr

/-- Steps under at-least-once delivery: run the next pending invocation,
or redeliver Stage B once it has ever been enqueued. -/
inductive StepAL : SysAL → SysAL → Prop
  | runAnalyze (s : SysAL) (k : ℕ) (rest : List (StageA × ℕ)) (env : AEnv)
      (h : s.pending = (.analyze, k) :: rest) :
      StepAL s ⟨(analyze_content_task s.record k env).record,
        rest ++ (applyEffectA .analyze k (analyze_content_task s.record k env).effect).toList,
        s.enqueuedOptimizeAfter
          || decide ((analyze_content_task s.record k env).effect = .enqueuedB)⟩
  | runOptimizeAfter (s : SysAL) (k : ℕ) (rest : List (StageA × ℕ)) (env : BEnv)
      (h : s.pending = (.optimizeAfter, k) :: rest) :
      StepAL s ⟨(optimize_after_analysis_task s.record k env).record,
        rest ++ (applyEffectA .optimizeAfter k
          (optimize_after_analysis_task s.record k env).effect).toList,
        s.enqueuedOptimizeAfter⟩
  | redeliver (s : SysAL) (h : s.enqueuedOptimizeAfter = true) :
      StepAL s ⟨s.record, s.pending ++ [(.optimizeAfter, 0)], s.enqueuedOptimizeAfter⟩

/-- Reachability under at-least-once delivery. -/
def ReachAL : SysAL → SysAL → Prop := Relation.ReflTransGen StepAL

/-- Initial at-least-once chain state for a fresh record. -/
def initAL (r0 : AnalysisRecord) : SysAL := ⟨some r0, [(.analyze, 0)], false⟩

/-- A terminal record status. -/
def isTerminal (st : Status) : Prop := st = .completed ∨ st = .failed

/-- The forward order on statuses: anything follows `processing`,
terminal statuses only follow themselves. -/
def statusLe (a b : Status) : Prop := a = b ∨ a = .processing

/-! ## Basic facts about the task bodies -/

theorem analyze_body_error {r inm : AnalysisRecord} {env : AEnv}
    (h : analyze_body r env = .error inm) : inm = r := by
  unfold analyze_body at h
  split at h <;> (try split at h) <;> (try split at h)
  all_goals first
    | exact Except.noConfusion h
    | (injection h with h; exact h.symm)

theorem analyze_body_ok {r r2 : AnalysisRecord} {env : AEnv}
    (h : analyze_body r env = .ok r2) :
    r2.status = .processing ∧ r2.completed_at = r.completed_at := by
  unfold analyze_body at h
  split at h <;> (try split at h) <;> (try split at h)
  all_goals first
    | exact Except.noConfusion h
    | (injection h with h; subst h; exact ⟨rfl, rfl⟩)

theorem optimize_after_body_error {r inm : AnalysisRecord} {env : BEnv}
    (h : optimize_after_body r env = .error inm) : inm = r := by
  unfold optimize_after_body at h
  split at h <;> (try split at h)
  all_goals first
    | exact Except.noConfusion h
    | (injection h with h; exact h.symm)

theorem optimize_after_body_ok {r r2 : AnalysisRecord} {env : BEnv}
    (h : optimize_after_body r env = .ok r2) :
    r2.status = .completed ∧ r2.completed_at = some env.now := by
  unfold optimize_after_body at h
  split at h <;> (try split at h)
  all_goals first
    | exact Except.noConfusion h
    | (injection h with h; subst h; exact ⟨rfl, rfl⟩)

theorem optimize_body_error {r inm : OptimizationRecord} {env : OEnv}
    (h : optimize_body r env = .error inm) :
    inm.status = r.status ∧ inm.completed_at = r.completed_at := by
  unfold optimize_body at h
  split at h <;> (try split at h) <;> (try split at h)
  all_goals first
    | exact Except.noConfusion h
    | (injection h with h; subst h; exact ⟨rfl, rfl⟩)

theorem optimize_body_ok {r r2 : OptimizationRecord} {env : OEnv}
    (h : optimize_body r env = .ok r2) :
    r2.status = .completed ∧ r2.completed_at = some env.now := by
  unfold optimize_body at h
  split at h <;> (try split at h) <;> (try split at h)
  all_goals first
    | exact Except.noConfusion h
    | (injection h with h; subst h; exact ⟨rfl, rfl⟩)

/-! ## Invariants of the exactly-once chains -/

/-- Invariant of the analyze-then-optimize chain under exactly-once
delivery: the record is present; while `processing` its `completed_at`
is unset; once terminal, `completed_at` is set and nothing is pending. -/
def goodA (s : SysA) : Prop :=
  ∃ r, s.record = some r ∧
    ((r.status = .processing ∧ r.completed_at = none) ∨
      (isTerminal r.status ∧ r.completed_at ≠ none ∧ s.pending = none))

/-- Same invariant for the direct-optimize chain. -/
def goodO (s : SysO) : Prop :=
  ∃ q, s.record = some q ∧
    ((q.status = .processing ∧ q.completed_at = none) ∨
      (isTerminal q.status ∧ q.completed_at ≠ none ∧ s.pending = none))

theorem goodA_step {s t : SysA} (hs : goodA s) (h : StepA s t) : goodA t := by
  obtain ⟨r, hrec, hdisj⟩ := hs
  cases h with
  | runAnalyze k env hpend =>
    rcases hdisj with ⟨hst, hca⟩ | ⟨_, _, hp⟩
    · rw [hrec]
      rcases hb : analyze_body r env with inm | r2
      · by_cases hk : k < max_retries
        · refine ⟨r, ?_, Or.inl ⟨hst, hca⟩⟩
          simp [analyze_content_task, hb, hk]
        · refine ⟨{ inm with status := .failed, completed_at := some env.now }, ?_,
            Or.inr ⟨Or.inr rfl, by simp, ?_⟩⟩
          · simp [analyze_content_task, hb, hk]
          · simp [analyze_content_task, hb, hk, applyEffectA]
      · obtain ⟨h1, h2⟩ := analyze_body_ok hb
        refine ⟨r2, ?_, Or.inl ⟨h1, h2.trans hca⟩⟩
        simp [analyze_content_task, hb]
    · rw [hp] at hpend; exact Option.noConfusion hpend
  | runOptimizeAfter k env hpend =>
    rcases hdisj with ⟨hst, hca⟩ | ⟨_, _, hp⟩
    · rw [hrec]
      rcases hb : optimize_after_body r env with inm | r2
      · by_cases hk : k < max_retries
        · refine ⟨r, ?_, Or.inl ⟨hst, hca⟩⟩
          simp [optimize_after_analysis_task, hb, hk]
        · refine ⟨{ inm with status := .failed, completed_at := some env.now }, ?_,
            Or.inr ⟨Or.inr rfl, by simp, ?_⟩⟩
          · simp [optimize_after_analysis_task, hb, hk]
          · simp [optimize_after_analysis_task, hb, hk, applyEffectA]
      · obtain ⟨h1, h2⟩ := optimize_after_body_ok hb
        refine ⟨r2, ?_, Or.inr ⟨Or.inl h1, h2 ▸ (by simp), ?_⟩⟩
        · simp [optimize_after_analysis_task, hb]
        · simp [optimize_after_analysis_task, hb, applyEffectA]
    · rw [hp] at hpend; exact Option.noConfusion hpend

theorem goodO_step {s t : SysO} (hs : goodO s) (h : StepO s t) : goodO t := by
  obtain ⟨q, hrec, hdisj⟩ := hs
  cases h with
  | runOptimize k env hpend =>
    rcases hdisj with ⟨hst, hca⟩ | ⟨_, _, hp⟩
    · rw [hrec]
      rcases hb : optimize_body q env with inm | q2
      · by_cases hk : k < max_retries
        · refine ⟨q, ?_, Or.inl ⟨hst, hca⟩⟩
          simp [optimize_content_task, hb, hk]
        · refine ⟨{ inm with status := .failed, completed_at := some env.now }, ?_,
            Or.inr ⟨Or.inr rfl, by simp, ?_⟩⟩
          · simp [optimize_content_task, hb, hk]
          · simp [optimize_content_task, hb, hk, applyEffectO]
      · obtain ⟨h1, h2⟩ := optimize_body_ok hb
        refine ⟨q2, ?_, Or.inr ⟨Or.inl h1, h2 ▸ (by simp), ?_⟩⟩
        · simp [optimize_content_task, hb]
        · simp [optimize_content_task, hb, applyEffectO]
    · rw [hp] at hpend; exact Option.noConfusion hpend

theorem goodA_reach {s t : SysA} (hs : goodA s) (h : ReachA s t) : goodA t := by
  induction h with
  | refl => exact hs
  | tail _ hstep ih => exact goodA_step ih hstep

theorem goodO_reach {s t : SysO} (hs : goodO s) (h : ReachO s t) : goodO t := by
  induction h with
  | refl => exact hs
  | tail _ hstep ih => exact goodO_step ih hstep

theorem goodA_init {r0 : AnalysisRecord} (h1 : r0.status = .processing)
    (h2 : r0.completed_at = none) : goodA (initA r0) :=
  ⟨r0, rfl, Or.inl ⟨h1, h2⟩⟩

theorem goodO_init {q0 : OptimizationRecord} (h1 : q0.status = .processing)
    (h2 : q0.completed_at = none) : goodO (initO q0) :=
  ⟨q0, rfl, Or.inl ⟨h1, h2⟩⟩

/-- No step is possible once the invariant's terminal branch holds:
nothing is pending. -/
theorem StepA_no_terminal {s t : SysA} {r : AnalysisRecord} (hs : goodA s)
    (hrec : s.record = some r) (hterm : isTerminal r.status) (h : StepA s t) : False := by
  obtain ⟨r2, hrec2, hdisj⟩ := hs
  rw [hrec] at hrec2
  injection hrec2 with hrr
  subst hrr
  rcases hdisj with ⟨hst, _⟩ | ⟨_, _, hp⟩
  · rw [hst] at hterm
    rcases hterm with h | h <;> exact Status.noConfusion h
  · cases h with
    | runAnalyze k env hpend => rw [hp] at hpend; exact Option.noConfusion hpend
    | runOptimizeAfter k env hpend => rw [hp] at hpend; exact Option.noConfusion hpend

/-- Direct-optimize analogue of `StepA_no_terminal`. -/
theorem StepO_no_terminal {s t : SysO} {q : OptimizationRecord} (hs : goodO s)
    (hrec : s.record = some q) (hterm : isTerminal q.status) (h : StepO s t) : False := by
  obtain ⟨q2, hrec2, hdisj⟩ := hs
  rw [hrec] at hrec2
  injection hrec2 with hqq
  subst hqq
  rcases hdisj with ⟨hst, _⟩ | ⟨_, _, hp⟩
  · rw [hst] at hterm
    rcases hterm with h | h <;> exact Status.noConfusion h
  · cases h with
    | runOptimize k env hpend => rw [hp] at hpend; exact Option.noConfusion hpend

theorem isTerminal_not_processing {st : Status} (h : isTerminal st)
    (h2 : st = .processing) : False := by
  subst h2
  rcases h with h | h <;> exact Status.noConfusion h

/-- **C1** (amended).  Along every trace of either chain in which each
enqueued stage invocation is delivered exactly once — the delivery
discipline the handlers themselves produce — the record's status is
monotonic over `processing → completed | failed`: every step preserves
`statusLe`, a record that becomes terminal carries a non-null
`completed_at`, and from a terminal record no step changes anything (so
no trace reaches `completed` and later `failed` or vice versa, and
`completedAt` is immutable once terminal).  The unrestricted claim, with
the at-least-once redelivery the spec assumes of the task transport, is
false: see the counterexample.  -/
theorem C1_status_monotonic :
    (∀ (r0 : AnalysisRecord), r0.status = .processing → r0.completed_at = none →
      ∀ s t, ReachA (initA r0) s → StepA s t →
        ∀ r r2, s.record = some r → t.record = some r2 →
          statusLe r.status r2.status ∧
          (isTerminal r2.status → r2.completed_at ≠ none) ∧
          (isTerminal r.status → r2 = r ∧ r2.completed_at = r.completed_at)) ∧
    (∀ (q0 : OptimizationRecord), q0.status = .processing → q0.completed_at = none →
      ∀ s t, ReachO (initO q0) s → StepO s t →
        ∀ q q2, s.record = some q → t.record = some q2 →
          statusLe q.status q2.status ∧
          (isTerminal q2.status → q2.completed_at ≠ none) ∧
          (isTerminal q.status → q2 = q ∧ q2.completed_at = q.completed_at)) := by
  constructor
  · intro r0 h1 h2 s t hreach hstep r r2 hr hr2
    have hgs : goodA s := goodA_reach (goodA_init h1 h2) hreach
    by_cases hterm : isTerminal r.status
    · exact (StepA_no_terminal hgs hr hterm hstep).elim
    · obtain ⟨ra, hra, hdisj⟩ := hgs
      rw [hr] at hra
      injection hra with he
      subst he
      have hproc : r.status = .processing := by
        rcases hdisj with ⟨hp, _⟩ | ⟨ht, _, _⟩
        · exact hp
        · exact absurd ht hterm
      have hgt : goodA t :=
        goodA_step (goodA_reach (goodA_init h1 h2) hreach) hstep
      refine ⟨Or.inr hproc, ?_, fun ht => absurd ht hterm⟩
      intro hterm2
      obtain ⟨rb, hrb, hdisj2⟩ := hgt
      rw [hr2] at hrb
      injection hrb with he2
      subst he2
      rcases hdisj2 with ⟨hp2, _⟩ | ⟨_, hca2, _⟩
      · exact (isTerminal_not_processing hterm2 hp2).elim
      · exact hca2
  · intro q0 h1 h2 s t hreach hstep q q2 hq hq2
    have hgs : goodO s := goodO_reach (goodO_init h1 h2) hreach
    by_cases hterm : isTerminal q.status
    · exact (StepO_no_terminal hgs hq hterm hstep).elim
    · obtain ⟨qa, hqa, hdisj⟩ := hgs
      rw [hq] at hqa
      injection hqa with he
      subst he
      have hproc : q.status = .processing := by
        rcases hdisj with ⟨hp, _⟩ | ⟨ht, _, _⟩
        · exact hp
        · exact absurd ht hterm
      have hgt : goodO t :=
        goodO_step (goodO_reach (goodO_init h1 h2) hreach) hstep
      refine ⟨Or.inr hproc, ?_, fun ht => absurd ht hterm⟩
      intro hterm2
      obtain ⟨qb, hqb, hdisj2⟩ := hgt
      rw [hq2] at hqb
      injection hqb with he2
      subst he2
      rcases hdisj2 with ⟨hp2, _⟩ | ⟨_, hca2, _⟩
      · exact (isTerminal_not_processing hterm2 hp2).elim
      · exact hca2

/-- A concrete fresh analysis record used by witnesses. -/
def wAnalysisRecord : AnalysisRecord :=
  { status := .processing, input_content := some "hello world".data, input_url := none,
    target_keyword := "hello".data, seo_score := none, word_count := none,
    keyword_density := none, avg_sentence_length := none, readability_score := none,
    issues := none, optimized_imporvements := none, optimized_content := none,
    processing_time := none, completed_at := none }

/-- An analyze attempt whose `analyze()` call raises. -/
def wAEnv : AEnv := { fetch := .fail, analyzeRes := .fail, now := 7, elapsed := 1 }

/-- A concrete fresh optimization record used by witnesses. -/
def wOptimizationRecord : OptimizationRecord :=
  { status := .processing, input_content := "Original content".data,
    target_keyword := "test keyword".data, target_length := 500,
    tone := "professional".data, optimized_keyword_denisty := none,
    optimized_imporvements := none, optimized_content := none,
    processing_time := none, completed_at := none }

/-- A direct-optimize attempt whose rewrite call raises. -/
def wOEnv : OEnv := { rewrite := none, now := 3, elapsed := 2 }

/-- Witness for `C1_status_monotonic`: both halves applied to one
concrete first step of each chain. -/
theorem C1_status_monotonic_witness :
    (statusLe wAnalysisRecord.status wAnalysisRecord.status ∧
      (isTerminal wAnalysisRecord.status → wAnalysisRecord.completed_at ≠ none) ∧
      (isTerminal wAnalysisRecord.status →
        wAnalysisRecord = wAnalysisRecord ∧
        wAnalysisRecord.completed_at = wAnalysisRecord.completed_at)) ∧
    (statusLe wOptimizationRecord.status wOptimizationRecord.status ∧
      (isTerminal wOptimizationRecord.status → wOptimizationRecord.completed_at ≠ none) ∧
      (isTerminal wOptimizationRecord.status →
        wOptimizationRecord = wOptimizationRecord ∧
        wOptimizationRecord.completed_at = wOptimizationRecord.completed_at)) := by
  constructor
  · exact C1_status_monotonic.1 wAnalysisRecord rfl rfl (initA wAnalysisRecord) _
      Relation.ReflTransGen.refl
      (StepA.runAnalyze (initA wAnalysisRecord) 0 wAEnv rfl)
      wAnalysisRecord wAnalysisRecord rfl (by decide)
  · exact C1_status_monotonic.2 wOptimizationRecord rfl rfl (initO wOptimizationRecord) _
      Relation.ReflTransGen.refl
      (StepO.runOptimize (initO wOptimizationRecord) 0 wOEnv rfl)
      wOptimizationRecord wOptimizationRecord rfl (by decide)

/-! ## A status reversal under at-least-once delivery

The code's terminal-failure handler sets `status = "failed"` without
checking whether the record is already terminal.  Under the at-least-once
task delivery the spec assumes, a duplicate delivery of Stage B against
an already-`completed` record whose rewrite call then fails to retry
exhaustion therefore flips the record from `completed` to `failed` and
overwrites `completed_at`. -/

/-- Metrics returned by the successful Stage A attempt of the trace. -/
def cexData : AnalysisData :=
  { word_count := 2
    keyword_density := 50
    readability_score := 70
    avg_sentence_length := 2
    seo_score := 93
    issues := [.keyword_density_high] }

/-- Environment of the successful Stage A attempt. -/
def cexAEnv : AEnv := { fetch := .fail, analyzeRes := .ok cexData, now := 0, elapsed := 5 }

/-- Environment of the successful first Stage B attempt. -/
def cexBEnvOk : BEnv := { rewrite := some ("optimized".data, ["improved".data]), now := 10 }

/-- Environment of the failing redelivered Stage B attempts. -/
def cexBEnvFail : BEnv := { rewrite := none, now := 20 }

/-- The record after the successful Stage A attempt. -/
def cexR1 : AnalysisRecord :=
  { wAnalysisRecord with
    input_content := some "hello world".data
    word_count := some 2
    keyword_density := some 50
    readability_score := some 70
    avg_sentence_length := some 2
    seo_score := some 93
    issues := some [.keyword_density_high]
    status := .processing
    processing_time := some 5 }

/-- The record after the successful Stage B attempt: `completed`. -/
def cexR2 : AnalysisRecord :=
  { cexR1 with
    optimized_content := some "optimized".data
    optimized_imporvements := some ["improved".data]
    status := .completed
    completed_at := some 10 }

/-- The record after the redelivered Stage B exhausts its retries:
flipped to `failed`, `completed_at` overwritten. -/
def cexR3 : AnalysisRecord :=
  { cexR2 with status := .failed, completed_at := some 20 }

/-- The chain state in which the record is `completed`. -/
def cexCompletedState : SysAL := ⟨some cexR2, [], true⟩

/-- The chain state in which the same record has become `failed`. -/
def cexFailedState : SysAL := ⟨some cexR3, [], true⟩

/-- **C1** (counterexample).  In the at-least-once trace system, a fresh
record reaches `completed`, and from that completed state a redelivered
Stage B whose rewrite fails four times drives the same record to
`failed` with a different `completed_at`: status is not monotonic over
all reachable traces, a trace reaches `completed` then `failed`, and
`completedAt` is not immutable once terminal. -/
theorem C1_counterexample :
    ReachAL (initAL wAnalysisRecord) cexCompletedState ∧
    cexCompletedState.record = some cexR2 ∧
    cexR2.status = Status.completed ∧
    ReachAL cexCompletedState cexFailedState ∧
    cexFailedState.record = some cexR3 ∧
    cexR3.status = Status.failed ∧
    cexR3.completed_at ≠ cexR2.completed_at := by
  have h1 : StepAL (initAL wAnalysisRecord) ⟨some cexR1, [(.optimizeAfter, 0)], true⟩ := by
    have e : (⟨some cexR1, [(.optimizeAfter, 0)], true⟩ : SysAL) =
        ⟨(analyze_content_task (initAL wAnalysisRecord).record 0 cexAEnv).record,
          [] ++ (applyEffectA .analyze 0
            (analyze_content_task (initAL wAnalysisRecord).record 0 cexAEnv).effect).toList,
          (initAL wAnalysisRecord).enqueuedOptimizeAfter
            || decide ((analyze_content_task (initAL wAnalysisRecord).record 0 cexAEnv).effect
              = .enqueuedB)⟩ := by decide
    rw [e]
    exact StepAL.runAnalyze (initAL wAnalysisRecord) 0 [] cexAEnv rfl
  have h2 : StepAL ⟨some cexR1, [(.optimizeAfter, 0)], true⟩ cexCompletedState := by
    have e : cexCompletedState =
        ⟨(optimize_after_analysis_task
            (⟨some cexR1, [(.optimizeAfter, 0)], true⟩ : SysAL).record 0 cexBEnvOk).record,
          [] ++ (applyEffectA .optimizeAfter 0
            (optimize_after_analysis_task
              (⟨some cexR1, [(.optimizeAfter, 0)], true⟩ : SysAL).record 0 cexBEnvOk).effect).toList,
          (⟨some cexR1, [(.optimizeAfter, 0)], true⟩ : SysAL).enqueuedOptimizeAfter⟩ := by decide
    rw [e]
    exact StepAL.runOptimizeAfter _ 0 [] cexBEnvOk rfl
  have h3 : StepAL cexCompletedState ⟨some cexR2, [(.optimizeAfter, 0)], true⟩ := by
    have e : (⟨some cexR2, [(.optimizeAfter, 0)], true⟩ : SysAL) =
        ⟨cexCompletedState.record, cexCompletedState.pending ++ [(.optimizeAfter, 0)],
          cexCompletedState.enqueuedOptimizeAfter⟩ := by decide
    rw [e]
    exact StepAL.redeliver cexCompletedState rfl
  have hfail : ∀ k : ℕ, k < 3 →
      StepAL ⟨some cexR2, [(.optimizeAfter, k)], true⟩
        ⟨some cexR2, [(.optimizeAfter, k + 1)], true⟩ := by
    intro k hk
    have e : (⟨some cexR2, [(.optimizeAfter, k + 1)], true⟩ : SysAL) =
        ⟨(optimize_after_analysis_task
            (⟨some cexR2, [(.optimizeAfter, k)], true⟩ : SysAL).record k cexBEnvFail).record,
          [] ++ (applyEffectA .optimizeAfter k
            (optimize_after_analysis_task
              (⟨some cexR2, [(.optimizeAfter, k)], true⟩ : SysAL).record k cexBEnvFail).effect).toList,
          (⟨some cexR2, [(.optimizeAfter, k)], true⟩ : SysAL).enqueuedOptimizeAfter⟩ := by
      have hb : optimize_after_body cexR2 cexBEnvFail = .error cexR2 := rfl
      simp [optimize_after_analysis_task, hb, applyEffectA, max_retries, hk]
    rw [e]
    exact StepAL.runOptimizeAfter _ k [] cexBEnvFail rfl
  have h7 : StepAL ⟨some cexR2, [(.optimizeAfter, 3)], true⟩ cexFailedState := by
    have e : cexFailedState =
        ⟨(optimize_after_analysis_task
            (⟨some cexR2, [(.optimizeAfter, 3)], true⟩ : SysAL).record 3 cexBEnvFail).record,
          [] ++ (applyEffectA .optimizeAfter 3
            (optimize_after_analysis_task
              (⟨some cexR2, [(.optimizeAfter, 3)], true⟩ : SysAL).record 3 cexBEnvFail).effect).toList,
          (⟨some cexR2, [(.optimizeAfter, 3)], true⟩ : SysAL).enqueuedOptimizeAfter⟩ := by decide
    rw [e]
    exact StepAL.runOptimizeAfter _ 3 [] cexBEnvFail rfl
  refine ⟨Relation.ReflTransGen.tail (Relation.ReflTransGen.single h1) h2, rfl, rfl, ?_, rfl, rfl,
    by decide⟩
  exact Relation.ReflTransGen.tail
    (Relation.ReflTransGen.tail
      (Relation.ReflTransGen.tail
        (Relation.ReflTransGen.tail (Relation.ReflTransGen.single h3) (hfail 0 (by decide)))
        (hfail 1 (by decide)))
      (hfail 2 (by decide)))
    h7

/-! ## Facts about the tokenizer, the rounding and the keyword density -/

theorem splitWsAux_no_ws {s : List Char} :
    ∀ {acc : List Char}, (∀ c ∈ acc, isWs c = false) →
      ∀ t ∈ splitWsAux s acc, ∀ c ∈ t, isWs c = false := by
  induction s with
  | nil =>
    intro acc hacc t ht c hc
    unfold splitWsAux at ht
    by_cases hae : acc.isEmpty
    · rw [if_pos hae] at ht
      exact absurd ht (List.not_mem_nil t)
    · rw [if_neg hae] at ht
      have he : t = acc.reverse := List.mem_singleton.mp ht
      subst he
      exact hacc c (List.mem_reverse.mp hc)
  | cons a rest ih =>
    intro acc hacc t ht c hc
    unfold splitWsAux at ht
    by_cases hws : isWs a
    · rw [if_pos hws] at ht
      by_cases hae : acc.isEmpty
      · rw [if_pos hae] at ht
        exact ih (by intro x hx; simp at hx) t ht c hc
      · rw [if_neg hae] at ht
        rcases List.mem_cons.mp ht with ht | ht
        · subst ht
          exact hacc c (List.mem_reverse.mp hc)
        · exact ih (by intro x hx; simp at hx) t ht c hc
    · rw [if_neg hws] at ht
      refine @ih (a :: acc) ?_ t ht c hc
      intro x hx
      rcases List.mem_cons.mp hx with hx | hx
      · subst hx
        exact Bool.of_not_eq_true hws
      · exact hacc x hx

/-- Every token produced by `splitWs` is whitespace-free. -/
theorem splitWs_no_ws {s : Str} : ∀ t ∈ splitWs s, ∀ c ∈ t, isWs c = false :=
  splitWsAux_no_ws (by intro c hc; simp at hc)

theorem splitWsAux_no_ws_eq {s : List Char} (hs : ∀ c ∈ s, isWs c = false) :
    ∀ acc : List Char,
      splitWsAux s acc =
        if acc.reverse ++ s = [] then [] else [acc.reverse ++ s] := by
  induction s with
  | nil =>
    intro acc
    unfold splitWsAux
    by_cases hae : acc.isEmpty
    · have : acc = [] := List.isEmpty_iff.mp hae
      subst this
      simp
    · have : acc ≠ [] := fun h => hae (by simp [h])
      rw [if_neg hae, List.append_nil]
      rw [if_neg (by simpa using this)]
  | cons a rest ih =>
    intro acc
    have hws : isWs a = false := hs a (List.mem_cons_self a rest)
    have hrest : ∀ c ∈ rest, isWs c = false := fun c hc => hs c (List.mem_cons_of_mem a hc)
    unfold splitWsAux
    rw [if_neg (by simp [hws])]
    rw [ih hrest (a :: acc)]
    have he : (a :: acc).reverse ++ rest = acc.reverse ++ (a :: rest) := by simp
    rw [he]

/-- A whitespace-free string yields at most one token. -/
theorem splitWs_length_le_one {s : Str} (hs : ∀ c ∈ s, isWs c = false) :
    (splitWs s).length ≤ 1 := by
  rw [splitWs, splitWsAux_no_ws_eq hs []]
  simp only [List.reverse_nil, List.nil_append]
  split <;> simp

/-- A string that splits into more than one token contains whitespace. -/
theorem multiword_has_ws {kw : Str} (h : 1 < (splitWs kw).length) :
    ∃ c ∈ kw, isWs c = true := by
  by_contra hc
  push_neg at hc
  have hle := splitWs_length_le_one (fun c hcm => by
    have := hc c hcm
    exact Bool.not_eq_true (isWs c) ▸ by simpa using this)
  omega

theorem rhe_nonneg {q : ℚ} (h : 0 ≤ q) : 0 ≤ rhe q := by
  have h0 : (0:ℤ) ≤ ⌊q⌋ := Int.floor_nonneg.mpr h
  simp only [rhe]
  split_ifs <;> omega

theorem rhe_le {q : ℚ} {m : ℤ} (h : q ≤ (m : ℚ)) : rhe q ≤ m := by
  have hf : ⌊q⌋ ≤ m := by
    have := Int.floor_le_floor h
    rwa [Int.floor_intCast] at this
  have key : ¬(q - (⌊q⌋ : ℚ) < 1/2) → ⌊q⌋ + 1 ≤ m := by
    intro hn
    rcases lt_or_eq_of_le hf with h' | h'
    · omega
    · exfalso
      apply hn
      rw [h']
      have : q - (m:ℚ) ≤ 0 := by linarith
      linarith
  simp only [rhe]
  split_ifs with h1 h2 h3
  · exact hf
  · exact key h1
  · exact hf
  · exact key h1

theorem round2_nonneg {q : ℚ} (h : 0 ≤ q) : 0 ≤ round2 q := by
  unfold round2
  have h1 : (0:ℤ) ≤ rhe (q * 100) := rhe_nonneg (by positivity)
  have h2 : (0:ℚ) ≤ (rhe (q * 100) : ℚ) := by exact_mod_cast h1
  positivity

theorem round2_le_100 {q : ℚ} (h : q ≤ 100) : round2 q ≤ 100 := by
  unfold round2
  have h1 : q * 100 ≤ ((10000 : ℤ) : ℚ) := by push_cast; linarith
  have h2 : rhe (q * 100) ≤ 10000 := rhe_le h1
  have h3 : ((rhe (q * 100)) : ℚ) ≤ 10000 := by exact_mod_cast h2
  linarith

theorem round2_zero : round2 0 = 0 := by
  norm_num [round2, rhe]

theorem density_nonneg (text kw : Str) : 0 ≤ calculate_keyword_density text kw := by
  unfold calculate_keyword_density
  by_cases hempty : splitWs (pyLower text) = []
  · simp [hempty]
  · rw [if_neg hempty]
    apply round2_nonneg
    positivity

theorem density_le_100 (text kw : Str) : calculate_keyword_density text kw ≤ 100 := by
  unfold calculate_keyword_density
  by_cases hempty : splitWs (pyLower text) = []
  · simp [hempty]
  · rw [if_neg hempty]
    apply round2_le_100
    have hc : List.count (stripWs (pyLower kw)) (splitWs (pyLower text)) ≤
        (splitWs (pyLower text)).length := List.count_le_length _ _
    have hcq : ((List.count (stripWs (pyLower kw)) (splitWs (pyLower text))) : ℚ) ≤
        ((splitWs (pyLower text)).length : ℚ) := by exact_mod_cast hc
    have hn : (0:ℚ) < ((splitWs (pyLower text)).length : ℚ) := by
      exact_mod_cast List.length_pos.mpr hempty
    rw [div_mul_eq_mul_div, div_le_iff₀ hn]
    linarith

theorem density_zero_of_no_match {text kw : Str}
    (h : exactTokenMatches text kw = 0) : calculate_keyword_density text kw = 0 := by
  unfold exactTokenMatches at h
  unfold calculate_keyword_density
  by_cases hempty : splitWs (pyLower text) = []
  · simp [hempty]
  · rw [if_neg hempty, h]
    norm_num [round2_zero]

theorem density_eq_spec (text kw : Str) :
    calculate_keyword_density text kw = specKeywordDensity text kw := by
  unfold calculate_keyword_density specKeywordDensity exactTokenMatches
  by_cases hempty : splitWs (pyLower text) = []
  · simp [hempty]
  · have hlen : (splitWs (pyLower text)).length ≠ 0 := by
      simpa [List.length_eq_zero] using hempty
    rw [if_neg hempty, if_neg hlen]
    congr 1
    ring

/-- A keyword whose normalized form splits into more than one token can
never equal a single whitespace-free token, so its count is zero. -/
theorem multiword_no_match {text kw : Str}
    (h : 1 < (splitWs (stripWs (pyLower kw))).length) :
    exactTokenMatches text kw = 0 := by
  obtain ⟨c, hcmem, hcws⟩ := multiword_has_ws h
  unfold exactTokenMatches
  rw [List.count_eq_zero]
  intro hmem
  have := splitWs_no_ws _ hmem c hcmem
  rw [hcws] at this
  exact Bool.noConfusion this

/-- **C5**.  For every derived text and non-empty keyword, the keyword
density computed by `SEOAnalyzer.calculate_keyword_density` equals the
spec's `round(100 * exactTokenMatches(keyword) / totalTokens, 2)` (an
exact-token, not substring, match over the lowercased whitespace-split
text; `0` when there are no tokens), lies in `[0, 100]`, and is `0` when
the keyword appears zero times; and
`analyze("test keyword test", "test", plain).keywordDensity == 66.67`. -/
theorem C5_keyword_density :
    (∀ text kw : Str, (stripWs (pyLower kw)) ≠ [] →
      0 ≤ calculate_keyword_density text kw ∧
      calculate_keyword_density text kw ≤ 100 ∧
      (exactTokenMatches text kw = 0 → calculate_keyword_density text kw = 0) ∧
      calculate_keyword_density text kw = specKeywordDensity text kw) ∧
    calculate_keyword_density "test keyword test".data "test".data = 6667 / 100 := by
  constructor
  · intro text kw _
    exact ⟨density_nonneg text kw, density_le_100 text kw,
      fun h => density_zero_of_no_match h, density_eq_spec text kw⟩
  · simp only [calculate_keyword_density]
    rw [if_neg (by decide)]
    rw [show List.count (stripWs (pyLower "test".data))
        (splitWs (pyLower "test keyword test".data)) = 2 from by decide]
    rw [show (splitWs (pyLower "test keyword test".data)).length = 3 from by decide]
    norm_num [round2, rhe]

/-- Witness for `C5_keyword_density`: the universal half applied to the
concrete pair `("test keyword test", "test")`. -/
theorem C5_keyword_density_witness :
    0 ≤ calculate_keyword_density "test keyword test".data "test".data ∧
    calculate_keyword_density "test keyword test".data "test".data ≤ 100 ∧
    (exactTokenMatches "test keyword test".data "test".data = 0 →
      calculate_keyword_density "test keyword test".data "test".data = 0) ∧
    calculate_keyword_density "test keyword test".data "test".data =
      specKeywordDensity "test keyword test".data "test".data :=
  C5_keyword_density.1 "test keyword test".data "test".data (by decide)

theorem foldl_sub_penalties (l : List IssueCode) :
    ∀ a : ℤ,
      l.foldl (fun sc i => sc - SEVERITY_PENALTIES (severityOf i)) a =
        a - (l.map (fun i => SEVERITY_PENALTIES (severityOf i))).sum := by
  induction l with
  | nil => intro a; simp
  | cons x xs ih =>
    intro a
    simp only [List.foldl_cons, List.map_cons, List.sum_cons, ih]
    ring

/-- **C6**.  `calculate_mock_seo_score` equals
`clamp(100 - Σ penalty(severity(issue)), 0, 100)` over the detected
issues, with additive penalties `low=3, medium=7, high=15`; two `medium`
issues (low keyword density and poor readability) yield `86`. -/
theorem C6_seo_score :
    (∀ issues : List IssueCode,
      calculate_mock_seo_score issues =
        max 0 (min 100
          (100 - (issues.map (fun i => SEVERITY_PENALTIES (severityOf i))).sum))) ∧
    SEVERITY_PENALTIES .low = 3 ∧
    SEVERITY_PENALTIES .medium = 7 ∧
    SEVERITY_PENALTIES .high = 15 ∧
    severityOf .keyword_density_low = .medium ∧
    severityOf .readability_poor = .medium ∧
    calculate_mock_seo_score [.keyword_density_low, .readability_poor] = 86 := by
  refine ⟨?_, rfl, rfl, rfl, rfl, rfl, by decide⟩
  intro issues
  simp only [calculate_mock_seo_score, foldl_sub_penalties]

/-- **C10**.  A target keyword whose normalized form splits into more
than one token never equals a single whitespace-delimited token, so
`calculate_keyword_density` returns `0` for it on every text; hence a
direct-optimize run that completes stores
`optimized_keyword_denisty = 0` whenever the target keyword is
multi-word, regardless of the optimized content. -/
theorem C10_multiword_density_zero :
    (∀ text kw : Str, 1 < (splitWs (stripWs (pyLower kw))).length →
      calculate_keyword_density text kw = 0) ∧
    (∀ (q : OptimizationRecord) (env : OEnv) (k : ℕ) (q2 : OptimizationRecord),
      1 < (splitWs (stripWs (pyLower q.target_keyword))).length →
      q.status = .processing →
      (optimize_content_task (some q) k env).record = some q2 →
      q2.status = .completed →
      q2.optimized_keyword_denisty = some 0) := by
  constructor
  · intro text kw h
    exact density_zero_of_no_match (multiword_no_match h)
  · intro q env k q2 hkw hproc hrec hcomp
    rcases hb : optimize_body q env with inm | q2'
    · by_cases hk : k < max_retries
      · simp only [optimize_content_task, hb, if_pos hk] at hrec
        injection hrec with hrec
        subst hrec
        rw [hproc] at hcomp
        exact Status.noConfusion hcomp
      · simp only [optimize_content_task, hb, if_neg hk] at hrec
        injection hrec with hrec
        subst hrec
        exact Status.noConfusion hcomp
    · simp only [optimize_content_task, hb] at hrec
      injection hrec with hrec
      subst hrec
      unfold optimize_body at hb
      split at hb
      · split at hb
        · exact Except.noConfusion hb
        · split at hb
          · injection hb with hb
            subst hb
            show some (calculate_keyword_density _ q.target_keyword) = some 0
            rw [density_zero_of_no_match (multiword_no_match hkw)]
          · exact Except.noConfusion hb
      · exact Except.noConfusion hb

/-- The direct-optimize environment used by the `C10` witness: the
rewrite succeeds and returns a text containing the multi-word keyword. -/
def c10Env : OEnv := { rewrite := some ("x test keyword y".data, []), now := 5, elapsed := 6 }

/-- The record `optimize_content_task` stores for `wOptimizationRecord`
under `c10Env`. -/
def c10ResultRecord : OptimizationRecord :=
  { wOptimizationRecord with
    optimized_content := some "x test keyword y".data
    optimized_imporvements := some ([] : List Str)
    optimized_keyword_denisty :=
      some (calculate_keyword_density "x test keyword y".data "test keyword".data)
    status := .completed
    processing_time := some 6
    completed_at := some 5 }

/-- Witness for `C10_multiword_density_zero`: the phrase
`"test keyword"` occurs verbatim in the text, yet the density is `0`,
and a completed direct-optimize run on a `"test keyword"` record stores
a zero density. -/
theorem C10_multiword_density_zero_witness :
    calculate_keyword_density "a test keyword b".data "test keyword".data = 0 ∧
    c10ResultRecord.optimized_keyword_denisty = some 0 :=
  ⟨C10_multiword_density_zero.1 "a test keyword b".data "test keyword".data (by decide),
    C10_multiword_density_zero.2 wOptimizationRecord c10Env 0 c10ResultRecord
      (by decide) rfl rfl rfl⟩

/-- **C2**.  `optimize_after_analysis_task` re-run against the
already-`completed` record `cexR2` is not a no-op and can corrupt state:
with the rewrite call failing at exhausted retries it flips the record
to `failed` and overwrites `completed_at` (10 → 20), and with a rewrite
returning different content it silently overwrites `optimized_content`
and `completed_at` on the completed record. -/
theorem C2_terminal_rerun_flip :
    cexR2.status = Status.completed ∧
    cexR2.completed_at = some 10 ∧
    optimize_after_analysis_task (some cexR2) 3 cexBEnvFail = ⟨some cexR3, .finished⟩ ∧
    cexR3.status = Status.failed ∧
    cexR3.completed_at = some 20 ∧
    (optimize_after_analysis_task (some cexR2) 0
        ({ rewrite := some ("different".data, []), now := 30 } : BEnv)).record =
      some { cexR2 with
        optimized_content := some "different".data
        optimized_imporvements := some ([] : List Str)
        completed_at := some 30 } :=
  ⟨rfl, rfl, rfl, rfl, rfl, rfl⟩

/-- A record whose `target_keyword` is whitespace only, so that
`SEOAnalyzer.__init__` raises `ValueError` on every attempt. -/
def c3Record : AnalysisRecord := { wAnalysisRecord with target_keyword := " ".data }

/-- **C3** (counterexample).  On a record whose Scoring Engine
validation fails, the first attempt of the stage does retry (effect
`retried`, record unchanged and still `processing`): the failure is not
surfaced immediately as a permanent stage failure. -/
theorem C3_counterexample :
    seoAnalyzerInitOk (c3Record.input_content.getD []) c3Record.target_keyword
      contentType = false ∧
    analyze_content_task (some c3Record) 0 wAEnv = ⟨some c3Record, .retried⟩ ∧
    c3Record.status = Status.processing := by
  refine ⟨by decide, rfl, rfl⟩

/-- **C3** (amended).  A stage whose Scoring Engine validation fails is
retried exactly like a transient failure: while retries remain the
attempt re-schedules and leaves the record unchanged, and only once the
retry budget is exhausted does the record become a permanent `failed`
with `completed_at` stamped. -/
theorem C3_invalid_input_retried :
    ∀ (r : AnalysisRecord) (env : AEnv) (k : ℕ),
      r.input_url = none →
      seoAnalyzerInitOk (r.input_content.getD []) r.target_keyword contentType = false →
      (k < max_retries → analyze_content_task (some r) k env = ⟨some r, .retried⟩) ∧
      (max_retries ≤ k → analyze_content_task (some r) k env =
        ⟨some { r with status := .failed, completed_at := some env.now }, .finished⟩) := by
  intro r env k hurl hval
  have hres : resolvedInput r env = some (r.input_content.getD [], contentType) := by
    unfold resolvedInput
    rw [hurl]
  have hb : analyze_body r env = .error r := by
    unfold analyze_body
    rw [hres]
    simp [hval]
  constructor
  · intro hk
    simp [analyze_content_task, hb, hk]
  · intro hk
    have hk2 : ¬(k < max_retries) := not_lt.mpr hk
    simp [analyze_content_task, hb, hk2]

/-- Witness for `C3_invalid_input_retried` at `k = 0` and `k = 3`. -/
theorem C3_invalid_input_retried_witness :
    analyze_content_task (some c3Record) 0 wAEnv = ⟨some c3Record, .retried⟩ ∧
    analyze_content_task (some c3Record) 3 wAEnv =
      ⟨some { c3Record with status := .failed, completed_at := some wAEnv.now },
        .finished⟩ :=
  ⟨(C3_invalid_input_retried c3Record wAEnv 0 rfl (by decide)).1 (by decide),
    (C3_invalid_input_retried c3Record wAEnv 3 rfl (by decide)).2 (by decide)⟩

/-- **C4**.  For each of the three stages, four consecutive failing
attempts (`max_retries + 1 = 4`) leave the stored record untouched
through the three retries and then store it as `failed` with
`completed_at` stamped; the final attempt returns normally (effect
`finished` — no exception reaches the enqueuing caller, whose only call
was the fire-and-forget enqueue).  For the two analysis-chain stages the
final record differs from the initial one exactly in `status` and
`completed_at`, so no output field is left over from a prior success;
the same holds for the direct-optimize stage when the failures are
rewrite failures. -/
theorem C4_retry_exhaustion :
    (∀ (r0 : AnalysisRecord) (e1 e2 e3 e4 : AEnv),
      (∃ i1, analyze_body r0 e1 = .error i1) →
      (∃ i2, analyze_body r0 e2 = .error i2) →
      (∃ i3, analyze_body r0 e3 = .error i3) →
      (∃ i4, analyze_body r0 e4 = .error i4) →
      analyze_content_task (some r0) 0 e1 = ⟨some r0, .retried⟩ ∧
      analyze_content_task (some r0) 1 e2 = ⟨some r0, .retried⟩ ∧
      analyze_content_task (some r0) 2 e3 = ⟨some r0, .retried⟩ ∧
      analyze_content_task (some r0) 3 e4 =
        ⟨some { r0 with status := .failed, completed_at := some e4.now }, .finished⟩) ∧
    (∀ (r0 : AnalysisRecord) (e1 e2 e3 e4 : BEnv),
      (∃ i1, optimize_after_body r0 e1 = .error i1) →
      (∃ i2, optimize_after_body r0 e2 = .error i2) →
      (∃ i3, optimize_after_body r0 e3 = .error i3) →
      (∃ i4, optimize_after_body r0 e4 = .error i4) →
      optimize_after_analysis_task (some r0) 0 e1 = ⟨some r0, .retried⟩ ∧
      optimize_after_analysis_task (some r0) 1 e2 = ⟨some r0, .retried⟩ ∧
      optimize_after_analysis_task (some r0) 2 e3 = ⟨some r0, .retried⟩ ∧
      optimize_after_analysis_task (some r0) 3 e4 =
        ⟨some { r0 with status := .failed, completed_at := some e4.now }, .finished⟩) ∧
    (∀ (q0 : OptimizationRecord) (e1 e2 e3 e4 : OEnv),
      (∃ i1, optimize_body q0 e1 = .error i1) →
      (∃ i2, optimize_body q0 e2 = .error i2) →
      (∃ i3, optimize_body q0 e3 = .error i3) →
      (∃ i4, optimize_body q0 e4 = .error i4) →
      optimize_content_task (some q0) 0 e1 = ⟨some q0, .retried⟩ ∧
      optimize_content_task (some q0) 1 e2 = ⟨some q0, .retried⟩ ∧
      optimize_content_task (some q0) 2 e3 = ⟨some q0, .retried⟩ ∧
      (optimize_content_task (some q0) 3 e4).effect = .finished ∧
      (∀ qf, (optimize_content_task (some q0) 3 e4).record = some qf →
        qf.status = .failed ∧ qf.completed_at = some e4.now) ∧
      (e4.rewrite = none →
        optimize_content_task (some q0) 3 e4 =
          ⟨some { q0 with status := .failed, completed_at := some e4.now },
            .finished⟩)) := by
  refine ⟨?_, ?_, ?_⟩
  · intro r0 e1 e2 e3 e4 h1 h2 h3 h4
    obtain ⟨i1, hb1⟩ := h1
    obtain ⟨i2, hb2⟩ := h2
    obtain ⟨i3, hb3⟩ := h3
    obtain ⟨i4, hb4⟩ := h4
    rw [analyze_body_error hb1] at hb1
    rw [analyze_body_error hb2] at hb2
    rw [analyze_body_error hb3] at hb3
    rw [analyze_body_error hb4] at hb4
    refine ⟨?_, ?_, ?_, ?_⟩
    · simp [analyze_content_task, hb1, max_retries]
    · simp [analyze_content_task, hb2, max_retries]
    · simp [analyze_content_task, hb3, max_retries]
    · simp [analyze_content_task, hb4, max_retries]
  · intro r0 e1 e2 e3 e4 h1 h2 h3 h4
    obtain ⟨i1, hb1⟩ := h1
    obtain ⟨i2, hb2⟩ := h2
    obtain ⟨i3, hb3⟩ := h3
    obtain ⟨i4, hb4⟩ := h4
    rw [optimize_after_body_error hb1] at hb1
    rw [optimize_after_body_error hb2] at hb2
    rw [optimize_after_body_error hb3] at hb3
    rw [optimize_after_body_error hb4] at hb4
    refine ⟨?_, ?_, ?_, ?_⟩
    · simp [optimize_after_analysis_task, hb1, max_retries]
    · simp [optimize_after_analysis_task, hb2, max_retries]
    · simp [optimize_after_analysis_task, hb3, max_retries]
    · simp [optimize_after_analysis_task, hb4, max_retries]
  · intro q0 e1 e2 e3 e4 h1 h2 h3 h4
    obtain ⟨i1, hb1⟩ := h1
    obtain ⟨i2, hb2⟩ := h2
    obtain ⟨i3, hb3⟩ := h3
    obtain ⟨i4, hb4⟩ := h4
    have he4 : optimize_content_task (some q0) 3 e4 =
        ⟨some { i4 with status := .failed, completed_at := some e4.now }, .finished⟩ := by
      simp [optimize_content_task, hb4, max_retries]
    refine ⟨?_, ?_, ?_, ?_, ?_, ?_⟩
    · simp [optimize_content_task, hb1, max_retries]
    · simp [optimize_content_task, hb2, max_retries]
    · simp [optimize_content_task, hb3, max_retries]
    · rw [he4]
    · intro qf hqf
      rw [he4] at hqf
      injection hqf with hqf
      subst hqf
      exact ⟨rfl, rfl⟩
    · intro hrw
      have hbn : optimize_body q0 e4 = .error q0 := by
        unfold optimize_body
        by_cases ha : optimize_args_ok q0.input_content q0.target_keyword q0.tone
            q0.target_length <;> simp [ha, hrw]
      simp [optimize_content_task, hbn, max_retries]

/-- Witness for `C4_retry_exhaustion`: the exhausted fourth attempt of
each stage on a concrete record under concrete failing environments. -/
theorem C4_retry_exhaustion_witness :
    analyze_content_task (some wAnalysisRecord) 3 wAEnv =
      ⟨some { wAnalysisRecord with status := .failed, completed_at := some wAEnv.now },
        .finished⟩ ∧
    optimize_after_analysis_task (some cexR1) 3 cexBEnvFail =
      ⟨some { cexR1 with status := .failed, completed_at := some cexBEnvFail.now },
        .finished⟩ ∧
    optimize_content_task (some wOptimizationRecord) 3 wOEnv =
      ⟨some { wOptimizationRecord with status := .failed, completed_at := some wOEnv.now },
        .finished⟩ :=
  ⟨(C4_retry_exhaustion.1 wAnalysisRecord wAEnv wAEnv wAEnv wAEnv
      ⟨_, rfl⟩ ⟨_, rfl⟩ ⟨_, rfl⟩ ⟨_, rfl⟩).2.2.2,
    (C4_retry_exhaustion.2.1 cexR1 cexBEnvFail cexBEnvFail cexBEnvFail cexBEnvFail
      ⟨_, rfl⟩ ⟨_, rfl⟩ ⟨_, rfl⟩ ⟨_, rfl⟩).2.2.2,
    (C4_retry_exhaustion.2.2 wOptimizationRecord wOEnv wOEnv wOEnv wOEnv
      ⟨_, rfl⟩ ⟨_, rfl⟩ ⟨_, rfl⟩ ⟨_, rfl⟩).2.2.2.2.2 rfl⟩

/-- **C7**.  A successful Stage A attempt resolves the input (fetched
text for a URL record, stored content otherwise), persists every metric
field of the Scoring Engine result together with the resolved content,
sets `processing_time`, leaves `status = processing`, does not touch
`completed_at`, and enqueues Stage B. -/
theorem C7_stage_a_success :
    ∀ (r : AnalysisRecord) (env : AEnv) (k : ℕ) (content input_type : Str)
      (d : AnalysisData),
      resolvedInput r env = some (content, input_type) →
      seoAnalyzerInitOk content r.target_keyword input_type = true →
      env.analyzeRes = .ok d →
      analyze_content_task (some r) k env =
        ⟨some { r with
          input_content := some content
          word_count := some d.word_count
          keyword_density := some d.keyword_density
          readability_score := some d.readability_score
          avg_sentence_length := some d.avg_sentence_length
          seo_score := some d.seo_score
          issues := some d.issues
          status := .processing
          processing_time := some env.elapsed }, .enqueuedB⟩ ∧
      (∀ r2, (analyze_content_task (some r) k env).record = some r2 →
        r2.status = .processing ∧ r2.completed_at = r.completed_at) := by
  intro r env k content input_type d hres hval hana
  have hb : analyze_body r env = .ok { r with
      input_content := some content
      word_count := some d.word_count
      keyword_density := some d.keyword_density
      readability_score := some d.readability_score
      avg_sentence_length := some d.avg_sentence_length
      seo_score := some d.seo_score
      issues := some d.issues
      status := .processing
      processing_time := some env.elapsed } := by
    unfold analyze_body
    rw [hres]
    simp [hval, hana]
  have hmain : analyze_content_task (some r) k env =
      ⟨some { r with
        input_content := some content
        word_count := some d.word_count
        keyword_density := some d.keyword_density
        readability_score := some d.readability_score
        avg_sentence_length := some d.avg_sentence_length
        seo_score := some d.seo_score
        issues := some d.issues
        status := .processing
        processing_time := some env.elapsed }, .enqueuedB⟩ := by
    simp [analyze_content_task, hb]
  refine ⟨hmain, ?_⟩
  intro r2 hr2
  rw [hmain] at hr2
  injection hr2 with hr2
  subst hr2
  exact ⟨rfl, rfl⟩

/-- Witness for `C7_stage_a_success`: the concrete successful Stage A
attempt of the trace above. -/
theorem C7_stage_a_success_witness :
    analyze_content_task (some wAnalysisRecord) 0 cexAEnv = ⟨some cexR1, .enqueuedB⟩ ∧
    (cexR1.status = Status.processing ∧
      cexR1.completed_at = wAnalysisRecord.completed_at) :=
  ⟨(C7_stage_a_success wAnalysisRecord cexAEnv 0 "hello world".data contentType cexData
      rfl (by decide) rfl).1,
    (C7_stage_a_success wAnalysisRecord cexAEnv 0 "hello world".data contentType cexData
      rfl (by decide) rfl).2 cexR1 rfl⟩

/-- **C8**.  A stage invoked against a record identifier absent from the
store is a silent no-op: each handler returns normally (effect
`finished`, which raises nothing to any caller) leaving the store
without a record — nothing is created or mutated. -/
theorem C8_missing_record_noop :
    ∀ (k : ℕ) (envA : AEnv) (envB : BEnv) (envO : OEnv),
      analyze_content_task none k envA = ⟨none, .finished⟩ ∧
      optimize_after_analysis_task none k envB = ⟨none, .finished⟩ ∧
      optimize_content_task none k envO = ⟨none, .finished⟩ :=
  fun _ _ _ _ => ⟨rfl, rfl, rfl⟩

/-- **C9**.  When the rewrite call of `optimize_content_task` returns an
empty or whitespace-only `optimized_content`, the keyword-density step's
`SEOAnalyzer` validation fails, so the attempt takes the exception path:
with retries left the stage retries with the stored record unchanged,
after exhaustion the record is stored as `failed` with `completed_at`
stamped, and no attempt ever stores the record as `completed`. -/
theorem C9_empty_rewrite_not_committed :
    ∀ (q : OptimizationRecord) (env : OEnv) (k : ℕ) (oc : Str) (imp : List Str),
      env.rewrite = some (oc, imp) →
      stripWs oc = [] →
      q.status = .processing →
      (k < max_retries → optimize_content_task (some q) k env = ⟨some q, .retried⟩) ∧
      (∀ qf, (optimize_content_task (some q) k env).record = some qf →
        qf.status ≠ .completed) ∧
      (max_retries ≤ k → ∀ qf, (optimize_content_task (some q) k env).record = some qf →
        qf.status = .failed ∧ qf.completed_at = some env.now) := by
  intro q env k oc imp hrw hstrip hproc
  have hval : seoAnalyzerInitOk oc q.target_keyword contentType = false := by
    simp [seoAnalyzerInitOk, hstrip]
  obtain ⟨inm, hb⟩ : ∃ inm, optimize_body q env = .error inm := by
    unfold optimize_body
    by_cases ha : optimize_args_ok q.input_content q.target_keyword q.tone q.target_length
    · exact ⟨{ q with optimized_content := some oc, optimized_imporvements := some imp },
        by simp [ha, hrw, hval]⟩
    · exact ⟨q, by simp [ha]⟩
  refine ⟨fun hk => by simp [optimize_content_task, hb, hk], ?_, ?_⟩
  · intro qf hqf
    by_cases hk : k < max_retries
    · have he : optimize_content_task (some q) k env = ⟨some q, .retried⟩ := by
        simp [optimize_content_task, hb, hk]
      rw [he] at hqf
      injection hqf with hqf
      subst hqf
      rw [hproc]
      exact fun h => Status.noConfusion h
    · have he : optimize_content_task (some q) k env =
          ⟨some { inm with status := .failed, completed_at := some env.now }, .finished⟩ := by
        simp [optimize_content_task, hb, hk]
      rw [he] at hqf
      injection hqf with hqf
      subst hqf
      exact fun h => Status.noConfusion h
  · intro hk qf hqf
    have hk2 : ¬(k < max_retries) := not_lt.mpr hk
    have he : optimize_content_task (some q) k env =
        ⟨some { inm with status := .failed, completed_at := some env.now }, .finished⟩ := by
      simp [optimize_content_task, hb, hk2]
    rw [he] at hqf
    injection hqf with hqf
    subst hqf
    exact ⟨rfl, rfl⟩

/-- Environment whose rewrite returns a whitespace-only optimized
content. -/
def c9Env : OEnv := { rewrite := some ("   ".data, []), now := 9, elapsed := 4 }

/-- The record stored when the whitespace-content attempt exhausts its
retries: `failed`, with the partial in-memory assignments saved. -/
def c9FailedRecord : OptimizationRecord :=
  { wOptimizationRecord with
    optimized_content := some "   ".data
    optimized_imporvements := some ([] : List Str)
    status := .failed
    completed_at := some 9 }

/-- Witness for `C9_empty_rewrite_not_committed` at `k = 0` and
`k = 3`. -/
theorem C9_empty_rewrite_not_committed_witness :
    optimize_content_task (some wOptimizationRecord) 0 c9Env =
      ⟨some wOptimizationRecord, .retried⟩ ∧
    wOptimizationRecord.status ≠ Status.completed ∧
    (c9FailedRecord.status = Status.failed ∧ c9FailedRecord.completed_at = some c9Env.now) :=
  ⟨(C9_empty_rewrite_not_committed wOptimizationRecord c9Env 0 "   ".data [] rfl
      (by decide) rfl).1 (by decide),
    (C9_empty_rewrite_not_committed wOptimizationRecord c9Env 0 "   ".data [] rfl
      (by decide) rfl).2.1 wOptimizationRecord rfl,
    (C9_empty_rewrite_not_committed wOptimizationRecord c9Env 3 "   ".data [] rfl
      (by decide) rfl).2.2 (by decide) c9FailedRecord rfl⟩

end SeoOptimizer
